import Mathlib

/-!
# Verification of the chaabi-night seat inventory and allocation engine

This file gives a shallow embedding, in Lean 4, of the seat-status store,
the reservation store, the seat allocator and the coordinator operations of
the chaabi-night reservation application (`ReservationService` in
`reservation.service.ts`, plus the coordinator methods of
`AdminDashboardComponent`), together with proofs about them.

The browser `localStorage` layer is modelled explicitly only where parsing
behaviour matters (`RawSeatData` / `RawListData`); everywhere else the
operations are stated directly on the parsed store state (a list of
seat-status entries and a list of reservation entries), threading the state
through each operation in place of the read/write pairs of the source.
`Math.random()` is modelled by an oracle `rand : Nat → Nat`; the index the
source draws in step `i` from a pool of length `n` is `rand i % n`.
-/

namespace Chaabi

/-- The origin of a seat-status entry: `'user'` or `'admin'` in the source. -/
inductive Source where
  | user
  | admin
  deriving DecidableEq, Repr

/-- A persisted seat-status entry `{ tableId, seatId, source }`. -/
structure SeatStatus where
  tableId : Nat
  seatId : Nat
  source : Source
  deriving DecidableEq, Repr

/-- A seat reference `{ tableId, seatId }` as used in reservation seat lists. -/
structure Seat where
  tableId : Nat
  seatId : Nat
  deriving DecidableEq, Repr

/-- A stored reservation entry (interface `ReservationEntry`). -/
structure ReservationEntry where
  id : Nat
  name : String
  phone : String
  pack : String
  seats : List Seat
  timestamp : Nat
  deriving DecidableEq, Repr

/-- A reservation entry without its `id` (`Omit<ReservationEntry, 'id'>`). -/
structure ReservationData where
  name : String
  phone : String
  pack : String
  seats : List Seat
  timestamp : Nat
  deriving DecidableEq, Repr

/-- The combined persisted state the coordinator operations act on. -/
structure Store where
  reservations : List ReservationEntry
  statuses : List SeatStatus
  deriving DecidableEq, Repr

/-! ## Persistence layer (only where parsing behaviour matters)

`getReservations` / `getSeatStatuses` read a raw string from `localStorage`
and run it through `JSON.parse` inside a `try`/`catch`.  We model the raw
value abstractly: it is missing (`localStorage.getItem` returned `null`),
malformed (`JSON.parse` throws, or the parsed value is not an array so the
subsequent `.map` throws), or an array of items. -/

/-- One element of the persisted `chaabiSeatStatuses` array.  An object item
carries the two ids and whether its `source` field compares equal to
`'admin'` (a missing or different `source` behaves identically: the source
code tests `item.source === 'admin'`).  A non-object item is kept as such:
the source maps it to the sentinel entry `{0, 0, 'user'}`. -/
inductive RawSeatItem where
  | object (tableId seatId : Nat) (sourceIsAdmin : Bool)
  | nonObject
  deriving DecidableEq, Repr

/-- The raw persisted value under the seat-status key. -/
inductive RawSeatData where
  | missing
  | malformed
  | stored (items : List RawSeatItem)
  deriving DecidableEq, Repr

/-- The raw persisted value under the reservations key. -/
inductive RawListData (α : Type) where
  | missing
  | malformed
  | stored (items : List α)
  deriving DecidableEq, Repr

/-- `ReservationService.getReservations`: `JSON.parse` of the raw blob, an
empty array when nothing is stored, an empty array when parsing throws. -/
def getReservations : RawListData ReservationEntry → List ReservationEntry
  | .missing => []
  | .malformed => []
  | .stored items => items

/-- `ReservationService.getSeatStatuses`: parse, then normalise each item —
an object keeps its ids and gets `source = 'admin'` exactly when its
`source` field equals `'admin'` (anything else, including a missing field,
becomes `'user'`); a non-object item becomes `{0, 0, 'user'}`.  A missing
or malformed blob degrades to the empty list. -/
def getSeatStatuses : RawSeatData → List SeatStatus
  | .missing => []
  | .malformed => []
  | .stored items =>
      items.map fun item =>
        match item with
        | .object t s isAdmin => ⟨t, s, if isAdmin then .admin else .user⟩
        | .nonObject => ⟨0, 0, .user⟩

/-! ## ReservationStore operations -/

/-- `ReservationService.addReservation`: the new id is
`reservations[reservations.length - 1].id + 1` when the list is non-empty
and `1` otherwise; the new entry is appended. -/
def addReservation (entry : ReservationData) (reservations : List ReservationEntry) :
    List ReservationEntry :=
  let newId :=
    match reservations.getLast? with
    | some last => last.id + 1
    | none => 1
  reservations ++ [⟨newId, entry.name, entry.phone, entry.pack, entry.seats, entry.timestamp⟩]

/-- `ReservationService.deleteReservation`: remove the first entry whose id
matches (`findIndex` + `splice(index, 1)`); report whether one was found. -/
def deleteReservation (id : Nat) (reservations : List ReservationEntry) :
    List ReservationEntry × Bool :=
  match reservations.findIdx? (fun r => r.id == id) with
  | some i => (reservations.eraseIdx i, true)
  | none => (reservations, false)

/-- `ReservationService.updateReservation`: replace the first entry whose id
matches, keeping the id; report whether one was found. -/
def updateReservation (id : Nat) (entry : ReservationData)
    (reservations : List ReservationEntry) : List ReservationEntry × Bool :=
  match reservations.findIdx? (fun r => r.id == id) with
  | some i =>
      (reservations.set i ⟨id, entry.name, entry.phone, entry.pack, entry.seats, entry.timestamp⟩,
       true)
  | none => (reservations, false)

/-! ## SeatStatusStore operations -/

/-- The membership test `s.tableId === seat.tableId && s.seatId === seat.seatId`. -/
def matchesSeat (t s : Nat) (e : SeatStatus) : Bool :=
  e.tableId == t && e.seatId == s

/-- `isFree` from `assignSeats`: a seat is free when no status entry matches it. -/
def isFree (statuses : List SeatStatus) (tableId seatId : Nat) : Bool :=
  !statuses.any (matchesSeat tableId seatId)

/-- `ReservationService.bookSeats`: for each requested seat in order, append
an entry with the given source unless some entry for that seat already
exists (the pre-existing entry is then left untouched). -/
def bookSeats (seats : List Seat) (source : Source) (statuses : List SeatStatus) :
    List SeatStatus :=
  seats.foldl
    (fun sts seat =>
      if sts.any (matchesSeat seat.tableId seat.seatId) then sts
      else sts ++ [⟨seat.tableId, seat.seatId, source⟩])
    statuses

/-- `ReservationService.unbookSeats`: for each requested seat, filter out
every entry that matches it. -/
def unbookSeats (seats : List Seat) (statuses : List SeatStatus) : List SeatStatus :=
  seats.foldl
    (fun sts seat => sts.filter (fun e => !matchesSeat seat.tableId seat.seatId e))
    statuses

/-- `ReservationService.toggleSeat`: `findIndex` + `splice(index, 1)` when an
entry for the seat exists, otherwise append an entry with source `'admin'`. -/
def toggleSeat (tableId seatId : Nat) (statuses : List SeatStatus) : List SeatStatus :=
  match statuses.findIdx? (matchesSeat tableId seatId) with
  | some i => statuses.eraseIdx i
  | none => statuses ++ [⟨tableId, seatId, .admin⟩]

/-! ## SeatAllocator (`assignSeats`) -/

/-- The circular successor used for duo packs: `seat === 10 ? 1 : seat + 1`. -/
def duoNext (seat : Nat) : Nat :=
  if seat = 10 then 1 else seat + 1

/-- Branch 1 of `assignSeats` (`count === 10`): the first table id in
`1..25` all of whose seats `1..10` are free. -/
def findFullTable (statuses : List SeatStatus) : Option Nat :=
  (List.range' 1 25).find? fun t => (List.range' 1 10).all (isFree statuses t)

/-- The ten seats of a table, in seat-id order `1..10`. -/
def tableSeats (t : Nat) : List Seat :=
  (List.range' 1 10).map fun s => ⟨t, s⟩

/-- The inner loop of branch 2 of `assignSeats`: the ascending list of free
seats of table `t` (the source sorts it, but it is built ascending), and the
first free seat whose circular successor is also free, paired with that
successor. -/
def duoInTable (statuses : List SeatStatus) (t : Nat) : Option (Nat × Nat) :=
  let freeSeats := (List.range' 1 10).filter (isFree statuses t)
  (freeSeats.find? fun s => freeSeats.contains (duoNext s)).map fun s => (s, duoNext s)

/-- Branch 2 of `assignSeats` (`count === 2`): scan tables `1..25` in order
for the first adjacent free pair. -/
def findDuo (statuses : List SeatStatus) : Option (Nat × Nat × Nat) :=
  (List.range' 1 25).findSome? fun t => (duoInTable statuses t).map fun p => (t, p.1, p.2)

/-- All 250 seats in `(tableId, seatId)` ascending order. -/
def allSeats : List Seat :=
  (List.range' 1 25).flatMap fun t => (List.range' 1 10).map fun s => ⟨t, s⟩

/-- The fallback pool of `assignSeats`: every free seat, in `(tableId,
seatId)` ascending order. -/
def allFreeSeats (statuses : List SeatStatus) : List Seat :=
  allSeats.filter fun seat => isFree statuses seat.tableId seat.seatId

/-- The fallback loop of `assignSeats`: `count` times (or until the pool is
empty), draw index `rand i % pool.length` from the remaining pool, remove
that seat (`splice(idx, 1)`) and append it to the result. -/
def randomPick (rand : Nat → Nat) : Nat → Nat → List Seat → List Seat
  | _, 0, _ => []
  | _, _ + 1, [] => []
  | i, count + 1, p :: ps =>
      let idx := rand i % (p :: ps).length
      let seat := (p :: ps).get ⟨idx, Nat.mod_lt _ (Nat.succ_pos _)⟩
      seat :: randomPick rand (i + 1) count ((p :: ps).eraseIdx idx)

/-- The `chosen` list computed by `ReservationService.assignSeats`: branch 1
for `count === 10`, branch 2 for `count === 2` when branch 1 left `chosen`
empty, and the random fallback when both branches left it empty. -/
def assignChosen (rand : Nat → Nat) (count : Nat) (statuses : List SeatStatus) :
    List Seat :=
  let chosen1 : List Seat :=
    if count = 10 then
      match findFullTable statuses with
      | some t => tableSeats t
      | none => []
    else []
  let chosen2 : List Seat :=
    if count = 2 ∧ chosen1 = [] then
      match findDuo statuses with
      | some (t, a, b) => [⟨t, a⟩, ⟨t, b⟩]
      | none => []
    else chosen1
  if chosen2 = [] then randomPick rand 0 count (allFreeSeats statuses)
  else chosen2

/-- `ReservationService.assignSeats`: compute `chosen` and then immediately
book the chosen seats with source `'user'` (`this.bookSeats(chosen, 'user')`),
returning both the chosen seats and the updated status store. -/
def assignSeats (rand : Nat → Nat) (count : Nat) (statuses : List SeatStatus) :
    List Seat × List SeatStatus :=
  let chosen := assignChosen rand count statuses
  (chosen, bookSeats chosen .user statuses)

/-! ## Coordinator operations of `AdminDashboardComponent` -/

/-- `cs` is a prefix of the second list (character-wise). -/
def charsPre : List Char → List Char → Bool
  | [], _ => true
  | _ :: _, [] => false
  | c :: cs, d :: ds => c == d && charsPre cs ds

/-- JavaScript `String.prototype.includes` on character lists: `pat` occurs
as a contiguous run of the second list. -/
def charsSub (pat : List Char) : List Char → Bool
  | [] => charsPre pat []
  | l@(_ :: rest) => charsPre pat l || charsSub pat rest

/-- `s.toLowerCase()`, character-wise. -/
def lowerChars (s : String) : List Char :=
  s.data.map Char.toLower

/-- `pack.toLowerCase().includes(pat)` for a lower-case pattern `pat`. -/
def packIncl (pack pat : String) : Bool :=
  charsSub pat.data (lowerChars pack)

/-- The new seat list built by `addReservationAdmin` / `updateReservationAdmin`
from the form fields, together with the status store after the build (the
auto-assignment branches call `assignSeats`, which books what it returns).
`tbl` is the selected table, `seatSel` the optional selected seat. -/
def adminBuildSeats (pack : String) (tbl : Nat) (seatSel : Option Nat)
    (rand : Nat → Nat) (statuses : List SeatStatus) : List Seat × List SeatStatus :=
  if packIncl pack "table" then
    -- reserve every currently-free seat of the selected table
    (((List.range' 1 10).filter (isFree statuses tbl)).map fun s => ⟨tbl, s⟩, statuses)
  else if packIncl pack "duo" then
    match seatSel with
    | some first => ([⟨tbl, first⟩, ⟨tbl, duoNext first⟩], statuses)
    | none => assignSeats rand 2 statuses
  else
    match seatSel with
    | some s => ([⟨tbl, s⟩], statuses)
    | none => assignSeats rand 1 statuses

/-- `AdminDashboardComponent.addReservationAdmin`: guard on the form fields,
build the seat list from the selected pack/table/seat, add the reservation,
then book the seats with source `'user'` when the list is non-empty. -/
def addReservationAdmin (name phone pack : String) (tableSel seatSel : Option Nat)
    (rand : Nat → Nat) (timestamp : Nat) (st : Store) : Store :=
  if name = "" ∨ phone = "" ∨ pack = "" then st
  else
    match tableSel with
    | none => st
    | some tbl =>
        let built := adminBuildSeats pack tbl seatSel rand st.statuses
        let seats := built.1
        let reservations' :=
          addReservation ⟨name, phone, pack, seats, timestamp⟩ st.reservations
        let statuses' := if seats = [] then built.2 else bookSeats seats .user built.2
        ⟨reservations', statuses'⟩

/-- `AdminDashboardComponent.updateReservationAdmin`: guard on the editing id
and the form fields, look up the old reservation, build the new seat list,
unbook the old seats, replace the stored entry (same id), then book the new
seats with source `'user'` when non-empty. -/
def updateReservationAdmin (editingId : Option Nat) (name phone pack : String)
    (tableSel seatSel : Option Nat) (rand : Nat → Nat) (timestamp : Nat)
    (st : Store) : Store :=
  match editingId with
  | none => st
  | some eid =>
      if name = "" ∨ phone = "" ∨ pack = "" then st
      else
        match tableSel with
        | none => st
        | some tbl =>
            match st.reservations.find? (fun r => r.id == eid) with
            | none => st
            | some oldReservation =>
                let built := adminBuildSeats pack tbl seatSel rand st.statuses
                let newSeats := built.1
                let sts1 :=
                  if oldReservation.seats = [] then built.2
                  else unbookSeats oldReservation.seats built.2
                let reservations' :=
                  (updateReservation eid ⟨name, phone, pack, newSeats, timestamp⟩
                    st.reservations).1
                let statuses' := if newSeats = [] then sts1 else bookSeats newSeats .user sts1
                ⟨reservations', statuses'⟩

/-- `AdminDashboardComponent.deleteReservation`: look the reservation up; when
found, unbook its seats then remove the stored entry. -/
def deleteReservationAdmin (id : Nat) (st : Store) : Store :=
  match st.reservations.find? (fun r => r.id == id) with
  | none => st
  | some r =>
      ⟨(deleteReservation id st.reservations).1, unbookSeats r.seats st.statuses⟩

/-! ## The consistency invariant (spec §3 / §8) -/

/-- The `(tableId, seatId)` key of a seat reference. -/
def seatKey (s : Seat) : Nat × Nat :=
  (s.tableId, s.seatId)

/-- The keys of all `source = 'user'` status entries. -/
def userKeys (statuses : List SeatStatus) : List (Nat × Nat) :=
  (statuses.filter fun e => e.source == .user).map fun e => (e.tableId, e.seatId)

/-- The keys of all seats referenced by the stored reservations. -/
def resKeys (reservations : List ReservationEntry) : List (Nat × Nat) :=
  reservations.flatMap fun r => r.seats.map seatKey

/-- The claimed consistency invariant: the seats holding a `source = 'user'`
status entry are exactly the seats referenced by some live reservation, and
the seat lists of distinct reservations are pairwise disjoint. -/
def ConsistentState (st : Store) : Prop :=
  ((∀ k ∈ userKeys st.statuses, k ∈ resKeys st.reservations) ∧
      ∀ k ∈ resKeys st.reservations, k ∈ userKeys st.statuses) ∧
    st.reservations.Pairwise fun r₁ r₂ =>
      ∀ s₁ ∈ r₁.seats, ∀ s₂ ∈ r₂.seats, seatKey s₁ ≠ seatKey s₂

instance (st : Store) : Decidable (ConsistentState st) := by
  unfold ConsistentState
  infer_instance

/-! ## Seat-status transition system (spec §4.4 state machine) -/

/-- A single seat-status store operation. -/
inductive Op where
  | book (seats : List Seat) (source : Source)
  | unbook (seats : List Seat)
  | toggle (tableId seatId : Nat)
  deriving Repr

/-- Apply one store operation to the status list. -/
def applyOp (op : Op) (statuses : List SeatStatus) : List SeatStatus :=
  match op with
  | .book seats source => bookSeats seats source statuses
  | .unbook seats => unbookSeats seats statuses
  | .toggle t s => toggleSeat t s statuses

/-- Run a sequence of store operations starting from the empty store (the
state of a fresh `localStorage`). -/
def runOps (ops : List Op) : List SeatStatus :=
  ops.foldl (fun sts op => applyOp op sts) []

/-- The status of a seat as every view computes it: the `source` of the
first matching entry (`Array.prototype.find`), `none` when the seat is free. -/
def seatSource (statuses : List SeatStatus) (t s : Nat) : Option Source :=
  (statuses.find? (matchesSeat t s)).map (·.source)

/-! ## General list helpers -/

/-- Membership in a step-one range. -/
lemma mem_range_one {m s n : Nat} : m ∈ List.range' s n ↔ s ≤ m ∧ m < s + n := by
  rw [List.mem_range']
  constructor
  · rintro ⟨i, hi, rfl⟩; omega
  · rintro ⟨h1, h2⟩; exact ⟨m - s, by omega, by omega⟩

/-- `find?` on a ranged list returns the least element satisfying the
predicate when everything before it fails. -/
lemma find?_range'_eq_some {p : Nat → Bool} {t : Nat} :
    ∀ (s n : Nat), s ≤ t → t < s + n → (∀ u, s ≤ u → u < t → p u = false) →
      p t = true → (List.range' s n).find? p = some t := by
  intro s n
  induction n generalizing s with
  | zero => intro h1 h2; omega
  | succ n ih =>
    intro h1 h2 h3 h4
    rw [List.range'_succ]
    rcases Nat.eq_or_lt_of_le h1 with heq | hlt
    · subst heq; rw [List.find?_cons_of_pos _ h4]
    · rw [List.find?_cons_of_neg _ (by simp [h3 s (Nat.le_refl s) hlt])]
      exact ih (s + 1) hlt (by omega) (fun u hu hu' => h3 u (by omega) hu') h4

/-- A `find?` hit in the left part of an append is the hit of the whole. -/
lemma find?_append_left {α} {p : α → Bool} {l₁ l₂ : List α} {a : α}
    (h : l₁.find? p = some a) : (l₁ ++ l₂).find? p = some a := by
  rw [List.find?_append, h]; rfl

/-- Erasing at the index reported by `findIdx?` is erasing the first match. -/
lemma eraseIdx_findIdx? {α} {p : α → Bool} :
    ∀ (l : List α) (i : Nat), l.findIdx? p = some i → l.eraseIdx i = l.eraseP p := by
  intro l
  induction l with
  | nil => intro i h; simp [List.findIdx?] at h
  | cons a t ih =>
    intro i h
    rw [List.findIdx?_cons, List.findIdx?_succ] at h
    by_cases hp : p a
    · rw [if_pos hp, Option.some.injEq] at h
      subst h
      simp [List.eraseIdx, List.eraseP_cons_of_pos hp]
    · rw [if_neg hp, Option.map_eq_some'] at h
      obtain ⟨j, hj, hji⟩ := h
      subst hji
      simp [List.eraseIdx, List.eraseP_cons_of_neg hp, ih j hj]

/-- `find?` is unchanged by erasing the first hit of a disjoint predicate. -/
lemma find?_eraseP_disjoint {α} {p q : α → Bool}
    (hdis : ∀ x, p x = true → q x = false) :
    ∀ l : List α, (l.eraseP q).find? p = l.find? p := by
  intro l
  induction l with
  | nil => simp
  | cons a t ih =>
    by_cases hq : q a
    · rw [List.eraseP_cons_of_pos hq, List.find?_cons_of_neg]
      intro hp
      have := hdis a hp
      simp [hq] at this
    · rw [List.eraseP_cons_of_neg hq]
      by_cases hp : p a
      · rw [List.find?_cons_of_pos _ hp, List.find?_cons_of_pos _ hp]
      · rw [List.find?_cons_of_neg _ hp, List.find?_cons_of_neg _ hp, ih]

/-- `find?` is unchanged by a filter that keeps every hit. -/
lemma find?_filter_imp {α} {p q : α → Bool}
    (himp : ∀ x, p x = true → q x = true) :
    ∀ l : List α, (l.filter q).find? p = l.find? p := by
  intro l
  induction l with
  | nil => simp
  | cons a t ih =>
    by_cases hq : q a
    · rw [List.filter_cons_of_pos hq]
      by_cases hp : p a
      · rw [List.find?_cons_of_pos _ hp, List.find?_cons_of_pos _ hp]
      · rw [List.find?_cons_of_neg _ hp, List.find?_cons_of_neg _ hp, ih]
    · rw [List.filter_cons_of_neg hq, List.find?_cons_of_neg, ih]
      intro hp
      have := himp a hp
      exact hq this

/-- Moving the selected element of a list to the front is a permutation. -/
lemma get_cons_eraseIdx_perm {α} :
    ∀ (l : List α) (i : Fin l.length), (l.get i :: l.eraseIdx i.val).Perm l := by
  intro l
  induction l with
  | nil => intro i; exact absurd i.isLt (by simp)
  | cons a t ih =>
    intro i
    match i with
    | ⟨0, _⟩ => simp [List.eraseIdx]
    | ⟨j + 1, hj⟩ =>
        have hj' : j < t.length := by simpa using hj
        have h1 : (t.get ⟨j, hj'⟩ :: a :: t.eraseIdx j).Perm
            (a :: t.get ⟨j, hj'⟩ :: t.eraseIdx j) := List.Perm.swap a _ _
        have h2 : (a :: t.get ⟨j, hj'⟩ :: t.eraseIdx j).Perm (a :: t) :=
          List.Perm.cons a (ih ⟨j, hj'⟩)
        exact h1.trans h2

/-- A selected element is not in the remainder of a duplicate-free list. -/
lemma get_not_mem_eraseIdx {α} :
    ∀ (l : List α), l.Nodup → ∀ (i : Fin l.length), l.get i ∉ l.eraseIdx i.val := by
  intro l
  induction l with
  | nil => intro _ i; exact absurd i.isLt (by simp)
  | cons a t ih =>
    intro hnd i
    rcases List.nodup_cons.mp hnd with ⟨ha, ht⟩
    match i with
    | ⟨0, _⟩ => simpa [List.eraseIdx] using ha
    | ⟨j + 1, hj⟩ =>
        have hj' : j < t.length := by simpa using hj
        simp only [List.get, List.eraseIdx, List.mem_cons]
        rintro (h | h)
        · exact ha (h ▸ t.get_mem _ _)
        · exact ih ht ⟨j, hj'⟩ h

/-! ## Structure of `bookSeats` -/

/-- The `(tableId, seatId)` key of a status entry. -/
def statusKey (e : SeatStatus) : Nat × Nat :=
  (e.tableId, e.seatId)

lemma matchesSeat_iff {t s : Nat} {e : SeatStatus} :
    matchesSeat t s e = true ↔ e.tableId = t ∧ e.seatId = s := by
  simp [matchesSeat]

lemma bookSeats_nil {src : Source} {sts : List SeatStatus} :
    bookSeats [] src sts = sts := rfl

lemma bookSeats_cons {seat : Seat} {rest : List Seat} {src : Source}
    {sts : List SeatStatus} :
    bookSeats (seat :: rest) src sts =
      bookSeats rest src
        (if sts.any (matchesSeat seat.tableId seat.seatId) then sts
         else sts ++ [⟨seat.tableId, seat.seatId, src⟩]) := by
  by_cases h : sts.any (matchesSeat seat.tableId seat.seatId)
  · rw [if_pos h]; simp only [bookSeats, List.foldl_cons, if_pos h]
  · rw [if_neg h]; simp only [bookSeats, List.foldl_cons, if_neg h]

/-- `bookSeats` only ever appends, and it appends only entries with the
requested source, for seats of the request that were free beforehand, at
pairwise-distinct keys. -/
lemma bookSeats_spec (src : Source) :
    ∀ (seats : List Seat) (sts : List SeatStatus),
      ∃ app, bookSeats seats src sts = sts ++ app ∧
        (∀ e ∈ app, e.source = src ∧ isFree sts e.tableId e.seatId = true ∧
          (⟨e.tableId, e.seatId⟩ : Seat) ∈ seats) ∧
        app.Pairwise (fun a b => statusKey a ≠ statusKey b) := by
  intro seats
  induction seats with
  | nil => intro sts; exact ⟨[], by simp [bookSeats_nil], by simp, List.Pairwise.nil⟩
  | cons seat rest ih =>
    intro sts
    rw [bookSeats_cons]
    by_cases h : sts.any (matchesSeat seat.tableId seat.seatId)
    · rw [if_pos h]
      obtain ⟨app, heq, hprops, hpw⟩ := ih sts
      exact ⟨app, heq, fun e he =>
        ⟨(hprops e he).1, (hprops e he).2.1, List.mem_cons_of_mem _ (hprops e he).2.2⟩, hpw⟩
    · rw [if_neg h]
      obtain ⟨app, heq, hprops, hpw⟩ := ih (sts ++ [⟨seat.tableId, seat.seatId, src⟩])
      refine ⟨⟨seat.tableId, seat.seatId, src⟩ :: app, by simpa using heq, ?_, ?_⟩
      · intro e he
        rcases List.mem_cons.mp he with rfl | he'
        · exact ⟨rfl, by simp [isFree, h], by simp⟩
        · obtain ⟨h1, h2, h3⟩ := hprops e he'
          refine ⟨h1, ?_, List.mem_cons_of_mem _ h3⟩
          simp only [isFree, List.any_append, Bool.not_eq_true', Bool.or_eq_false_iff] at h2 ⊢
          exact h2.1
      · refine List.Pairwise.cons ?_ hpw
        intro e he
        have h2 := (hprops e he).2.1
        simp only [isFree, List.any_append, Bool.not_eq_true', Bool.or_eq_false_iff] at h2
        have := h2.2
        simp only [List.any_cons, List.any_nil, Bool.or_eq_false_iff] at this
        intro hk
        have hm : matchesSeat e.tableId e.seatId
            (⟨seat.tableId, seat.seatId, src⟩ : SeatStatus) = true := by
          have h1 : seat.tableId = e.tableId := congrArg Prod.fst hk
          have h2' : seat.seatId = e.seatId := congrArg Prod.snd hk
          simp [matchesSeat, h1, h2']
        rw [this.1] at hm
        exact Bool.false_ne_true hm

/-- A seat that is booked stays booked: the entry test is monotone under
`bookSeats`. -/
lemma any_bookSeats_of_any {seats : List Seat} {src : Source}
    {sts : List SeatStatus} {t s : Nat}
    (h : sts.any (matchesSeat t s) = true) :
    (bookSeats seats src sts).any (matchesSeat t s) = true := by
  obtain ⟨app, heq, -, -⟩ := bookSeats_spec src seats sts
  rw [heq, List.any_append, h, Bool.true_or]

/-- Every requested seat is booked after `bookSeats`. -/
lemma any_bookSeats_of_mem :
    ∀ (seats : List Seat) (src : Source) (sts : List SeatStatus) (seat : Seat),
      seat ∈ seats →
      (bookSeats seats src sts).any (matchesSeat seat.tableId seat.seatId) = true := by
  intro seats
  induction seats with
  | nil => intro _ _ _ h; exact absurd h (List.not_mem_nil _)
  | cons a rest ih =>
    intro src sts seat hmem
    rw [bookSeats_cons]
    by_cases h : sts.any (matchesSeat a.tableId a.seatId)
    · rw [if_pos h]
      rcases List.mem_cons.mp hmem with rfl | hmem'
      · exact any_bookSeats_of_any h
      · exact ih src sts seat hmem'
    · rw [if_neg h]
      rcases List.mem_cons.mp hmem with rfl | hmem'
      · refine any_bookSeats_of_any ?_
        simp [List.any_append, matchesSeat]
      · exact ih src _ seat hmem'

/-- Booking a list of seats that are all already present changes nothing. -/
lemma bookSeats_of_all_present :
    ∀ (seats : List Seat) (src : Source) (sts : List SeatStatus),
      (∀ seat ∈ seats, sts.any (matchesSeat seat.tableId seat.seatId) = true) →
      bookSeats seats src sts = sts := by
  intro seats
  induction seats with
  | nil => intro _ _ _; rfl
  | cons a rest ih =>
    intro src sts h
    rw [bookSeats_cons, if_pos (h a (List.mem_cons_self a rest))]
    exact ih src sts fun seat hs => h seat (List.mem_cons_of_mem _ hs)

/-- `bookSeats` is idempotent. -/
lemma bookSeats_idem {seats : List Seat} {src : Source} {sts : List SeatStatus} :
    bookSeats seats src (bookSeats seats src sts) = bookSeats seats src sts :=
  bookSeats_of_all_present seats src _ fun seat hs =>
    any_bookSeats_of_mem seats src sts seat hs

/-- Booking leaves the entries of an already-present seat untouched. -/
lemma bookSeats_filter_present {seats : List Seat} {src : Source}
    {sts : List SeatStatus} {t s : Nat}
    (h : sts.any (matchesSeat t s) = true) :
    (bookSeats seats src sts).filter (matchesSeat t s) = sts.filter (matchesSeat t s) := by
  obtain ⟨app, heq, hprops, -⟩ := bookSeats_spec src seats sts
  rw [heq, List.filter_append]
  have happ : app.filter (matchesSeat t s) = [] := by
    rw [List.filter_eq_nil_iff]
    intro e he hm
    obtain ⟨-, hfree, -⟩ := hprops e he
    rcases matchesSeat_iff.mp hm with ⟨rfl, rfl⟩
    rw [isFree, h] at hfree
    simp at hfree
  rw [happ, List.append_nil]

/-- Booking a free seat creates exactly one entry for it, carrying the
requested source. -/
lemma bookSeats_filter_absent :
    ∀ (seats : List Seat) (src : Source) (sts : List SeatStatus) (seat : Seat),
      seat ∈ seats →
      sts.any (matchesSeat seat.tableId seat.seatId) = false →
      (bookSeats seats src sts).filter (matchesSeat seat.tableId seat.seatId) =
        [⟨seat.tableId, seat.seatId, src⟩] := by
  intro seats
  induction seats with
  | nil => intro _ _ _ h; exact absurd h (List.not_mem_nil _)
  | cons a rest ih =>
    intro src sts seat hmem habs
    rw [bookSeats_cons]
    by_cases h : sts.any (matchesSeat a.tableId a.seatId)
    · rw [if_pos h]
      rcases List.mem_cons.mp hmem with rfl | hmem'
      · rw [habs] at h; exact absurd h Bool.false_ne_true
      · exact ih src sts seat hmem' habs
    · rw [if_neg h]
      by_cases hsame : seat.tableId = a.tableId ∧ seat.seatId = a.seatId
      · have hpres : (sts ++ [(⟨a.tableId, a.seatId, src⟩ : SeatStatus)]).any
            (matchesSeat seat.tableId seat.seatId) = true := by
          simp [List.any_append, matchesSeat, hsame.1, hsame.2]
        rw [bookSeats_filter_present hpres, List.filter_append]
        have h1 : sts.filter (matchesSeat seat.tableId seat.seatId) = [] := by
          rw [List.filter_eq_nil_iff]
          intro e he hm
          have : sts.any (matchesSeat seat.tableId seat.seatId) = true :=
            List.any_eq_true.mpr ⟨e, he, hm⟩
          rw [habs] at this
          exact Bool.false_ne_true this
        rw [h1]
        simp [matchesSeat, hsame.1, hsame.2]
      · have hmem' : seat ∈ rest := by
          rcases List.mem_cons.mp hmem with rfl | hmem'
          · exact absurd ⟨rfl, rfl⟩ hsame
          · exact hmem'
        refine ih src _ seat hmem' ?_
        simp only [List.any_append, habs, Bool.false_or, List.any_cons, List.any_nil,
          Bool.or_false]
        have hne : ¬(a.tableId = seat.tableId ∧ a.seatId = seat.seatId) :=
          fun hc => hsame ⟨hc.1.symm, hc.2.symm⟩
        simp only [matchesSeat, Bool.and_eq_false_iff, beq_eq_false_iff_ne, ne_eq]
        rcases Decidable.not_and_iff_or_not.mp hne with h' | h'
        · exact Or.inl h'
        · exact Or.inr h'

/-! ## Structure of the allocator -/

lemma seat_eq_iff {a b : Seat} :
    a = b ↔ a.tableId = b.tableId ∧ a.seatId = b.seatId := by
  cases a; cases b; simp

/-- Booking a duplicate-free list of free seats appends exactly one entry
per seat, in order. -/
lemma bookSeats_of_free_nodup :
    ∀ (seats : List Seat) (src : Source) (sts : List SeatStatus),
      (∀ seat ∈ seats, isFree sts seat.tableId seat.seatId = true) → seats.Nodup →
      bookSeats seats src sts =
        sts ++ seats.map (fun s => ⟨s.tableId, s.seatId, src⟩) := by
  intro seats
  induction seats with
  | nil => intro src sts _ _; simp [bookSeats_nil]
  | cons a rest ih =>
    intro src sts hfree hnd
    have ha : sts.any (matchesSeat a.tableId a.seatId) = false := by
      have := hfree a (List.mem_cons_self a rest)
      rw [isFree] at this
      simpa using this
    rw [bookSeats_cons, if_neg (by rw [ha]; exact Bool.false_ne_true)]
    rcases List.nodup_cons.mp hnd with ⟨hna, hndr⟩
    have hrest : ∀ seat ∈ rest,
        isFree (sts ++ [⟨a.tableId, a.seatId, src⟩]) seat.tableId seat.seatId = true := by
      intro seat hs
      have hf := hfree seat (List.mem_cons_of_mem _ hs)
      rw [isFree] at hf ⊢
      simp only [List.any_append, Bool.not_eq_true', Bool.or_eq_false_iff] at hf ⊢
      refine ⟨by simpa using hf, ?_⟩
      simp only [List.any_cons, List.any_nil, Bool.or_false]
      have hne : a ≠ seat := fun hc => hna (hc ▸ hs)
      rcases Decidable.not_and_iff_or_not.mp
          (fun hc => hne (seat_eq_iff.mpr ⟨hc.1, hc.2⟩)) with h' | h'
      · simp [matchesSeat, h']
      · simp [matchesSeat, h']
    have hih := ih src _ hrest hndr
    rw [hih]
    simp

/-- Every seat `randomPick` returns comes from the pool, and the picks are
duplicate-free when the pool is. -/
lemma randomPick_mem_nodup (rand : Nat → Nat) :
    ∀ (count i : Nat) (pool : List Seat), pool.Nodup →
      (∀ x ∈ randomPick rand i count pool, x ∈ pool) ∧
        (randomPick rand i count pool).Nodup := by
  intro count
  induction count with
  | zero => intro i pool _; simp [randomPick]
  | succ k ih =>
    intro i pool hnd
    match pool with
    | [] => simp [randomPick]
    | p :: ps =>
      simp only [randomPick]
      set idx := rand i % (p :: ps).length with hidx
      have hlt : idx < (p :: ps).length := Nat.mod_lt _ (Nat.succ_pos _)
      have herased : ((p :: ps).eraseIdx idx).Nodup :=
        (List.eraseIdx_sublist _ idx).nodup hnd
      obtain ⟨ihmem, ihnd⟩ := ih (i + 1) ((p :: ps).eraseIdx idx) herased
      constructor
      · intro x hx
        rcases List.mem_cons.mp hx with rfl | hx'
        · exact List.get_mem _ _ _
        · exact (List.eraseIdx_sublist _ idx).subset (ihmem x hx')
      · refine List.nodup_cons.mpr ⟨?_, ihnd⟩
        intro hc
        exact get_not_mem_eraseIdx _ hnd ⟨idx, hlt⟩ (ihmem _ hc)

/-- When the pool is no larger than the request, `randomPick` returns a
permutation of the whole pool. -/
lemma randomPick_perm (rand : Nat → Nat) :
    ∀ (count i : Nat) (pool : List Seat), pool.length ≤ count →
      (randomPick rand i count pool).Perm pool := by
  intro count
  induction count with
  | zero =>
    intro i pool hlen
    have : pool = [] := List.length_eq_zero.mp (Nat.le_zero.mp hlen)
    subst this
    simp [randomPick]
  | succ k ih =>
    intro i pool hlen
    match pool with
    | [] => simp [randomPick]
    | p :: ps =>
      simp only [randomPick]
      set idx := rand i % (p :: ps).length with hidx
      have hlt : idx < (p :: ps).length := Nat.mod_lt _ (Nat.succ_pos _)
      have hlen' : ((p :: ps).eraseIdx idx).length ≤ k := by
        rw [List.length_eraseIdx_of_lt hlt]
        simpa using Nat.le_of_succ_le_succ hlen
      have hperm := ih (i + 1) _ hlen'
      exact (hperm.cons _).trans (get_cons_eraseIdx_perm (p :: ps) ⟨idx, hlt⟩)

lemma mem_allSeats {x : Seat} :
    x ∈ allSeats ↔ (1 ≤ x.tableId ∧ x.tableId ≤ 25) ∧ 1 ≤ x.seatId ∧ x.seatId ≤ 10 := by
  cases x with
  | mk t s =>
    simp only [allSeats, List.mem_flatMap, List.mem_map]
    constructor
    · rintro ⟨u, hu, v, hv, heq⟩
      cases heq
      rw [mem_range_one] at hu hv
      exact ⟨⟨hu.1, by omega⟩, hv.1, by omega⟩
    · rintro ⟨⟨ht1, ht2⟩, hs1, hs2⟩
      exact ⟨t, mem_range_one.mpr ⟨ht1, by omega⟩, s, mem_range_one.mpr ⟨hs1, by omega⟩, rfl⟩

lemma nodup_allSeats : allSeats.Nodup := by
  have h : allSeats =
      ((List.range' 1 25).product (List.range' 1 10)).map fun p => ⟨p.1, p.2⟩ := by
    simp only [allSeats, List.product, List.map_flatMap, List.map_map]
    rfl
  rw [h]
  refine List.Nodup.map ?_
    (List.Nodup.product (List.nodup_range' _ _) (List.nodup_range' _ _))
  intro p q hpq
  have := seat_eq_iff.mp hpq
  exact Prod.ext this.1 this.2

lemma mem_allFreeSeats {sts : List SeatStatus} {x : Seat} :
    x ∈ allFreeSeats sts ↔ x ∈ allSeats ∧ isFree sts x.tableId x.seatId = true := by
  simp [allFreeSeats, List.mem_filter]

lemma nodup_allFreeSeats {sts : List SeatStatus} : (allFreeSeats sts).Nodup :=
  (List.filter_sublist _).nodup nodup_allSeats

lemma findFullTable_some {sts : List SeatStatus} {t : Nat}
    (h : findFullTable sts = some t) :
    (1 ≤ t ∧ t ≤ 25) ∧ ∀ s, 1 ≤ s → s ≤ 10 → isFree sts t s = true := by
  have hmem := List.mem_of_find?_eq_some h
  have hp := List.find?_some h
  rw [mem_range_one] at hmem
  refine ⟨⟨hmem.1, by omega⟩, ?_⟩
  intro s h1 h10
  exact List.all_eq_true.mp hp s (mem_range_one.mpr ⟨h1, by omega⟩)

lemma tableSeats_nodup {t : Nat} : (tableSeats t).Nodup :=
  (List.nodup_range' _ _).map fun a b h => by simpa using (seat_eq_iff.mp h).2

lemma tableSeats_length {t : Nat} : (tableSeats t).length = 10 := by
  simp [tableSeats]

lemma mem_tableSeats {t : Nat} {x : Seat} :
    x ∈ tableSeats t ↔ x.tableId = t ∧ 1 ≤ x.seatId ∧ x.seatId ≤ 10 := by
  cases x with
  | mk u s =>
    simp only [tableSeats, List.mem_map]
    constructor
    · rintro ⟨v, hv, heq⟩
      cases heq
      rw [mem_range_one] at hv
      exact ⟨rfl, hv.1, by omega⟩
    · rintro ⟨rfl, h1, h10⟩
      exact ⟨s, mem_range_one.mpr ⟨h1, by omega⟩, rfl⟩

lemma findFullTable_some_length {sts : List SeatStatus} {t : Nat}
    (h : findFullTable sts = some t) : 10 ≤ (allFreeSeats sts).length := by
  obtain ⟨⟨h1, h25⟩, hfree⟩ := findFullTable_some h
  have hsub : tableSeats t ⊆ allFreeSeats sts := by
    intro x hx
    rcases mem_tableSeats.mp hx with ⟨hxt, hs1, hs10⟩
    rw [mem_allFreeSeats, mem_allSeats, hxt]
    exact ⟨⟨⟨h1, h25⟩, hs1, hs10⟩, hfree x.seatId hs1 hs10⟩
  have := (List.subperm_of_subset tableSeats_nodup hsub).length_le
  rw [tableSeats_length] at this
  exact this

lemma duoInTable_some {sts : List SeatStatus} {t a b : Nat}
    (h : duoInTable sts t = some (a, b)) :
    (1 ≤ a ∧ a ≤ 10 ∧ isFree sts t a = true) ∧
      (1 ≤ b ∧ b ≤ 10 ∧ isFree sts t b = true) ∧ b = duoNext a ∧ a ≠ b := by
  rw [duoInTable, Option.map_eq_some'] at h
  obtain ⟨s, hfind, heq⟩ := h
  have hmem := List.mem_of_find?_eq_some hfind
  have hpred := List.find?_some hfind
  rw [List.mem_filter, mem_range_one] at hmem
  have hnext : duoNext s ∈ (List.range' 1 10).filter (isFree sts t) := by
    simpa using hpred
  rw [List.mem_filter, mem_range_one] at hnext
  have ha : s = a := congrArg Prod.fst heq
  have hb : duoNext s = b := congrArg Prod.snd heq
  rw [← ha, ← hb]
  refine ⟨⟨hmem.1.1, by omega, hmem.2⟩, ⟨hnext.1.1, by omega, hnext.2⟩, rfl, ?_⟩
  rw [duoNext]
  by_cases hs : s = 10
  · rw [if_pos hs]; omega
  · rw [if_neg hs]; omega

lemma duoInTable_none {sts : List SeatStatus} {t : Nat}
    (h : ∀ s, 1 ≤ s → s ≤ 10 → isFree sts t s = true → isFree sts t (duoNext s) = false) :
    duoInTable sts t = none := by
  rw [duoInTable, Option.map_eq_none']
  rw [List.find?_eq_none]
  intro s hs
  rw [List.mem_filter, mem_range_one] at hs
  intro hc
  have : duoNext s ∈ (List.range' 1 10).filter (isFree sts t) := by simpa using hc
  rw [List.mem_filter] at this
  have hfalse := h s hs.1.1 (by omega) hs.2
  rw [this.2] at hfalse
  simp at hfalse

lemma findDuo_some {sts : List SeatStatus} {t a b : Nat}
    (h : findDuo sts = some (t, a, b)) :
    (1 ≤ t ∧ t ≤ 25) ∧ duoInTable sts t = some (a, b) := by
  obtain ⟨u, hu, hmap⟩ := List.exists_of_findSome?_eq_some h
  rw [Option.map_eq_some'] at hmap
  obtain ⟨p, hp, heq⟩ := hmap
  cases p with
  | mk pa pb =>
    injection heq with h1 h2
    injection h2 with h2 h3
    subst h1; subst h2; subst h3
    rw [mem_range_one] at hu
    exact ⟨⟨hu.1, by omega⟩, hp⟩

lemma findDuo_some_length {sts : List SeatStatus} {t a b : Nat}
    (h : findDuo sts = some (t, a, b)) : 2 ≤ (allFreeSeats sts).length := by
  obtain ⟨⟨ht1, ht25⟩, hduo⟩ := findDuo_some h
  obtain ⟨⟨ha1, ha10, haf⟩, ⟨hb1, hb10, hbf⟩, -, hab⟩ := duoInTable_some hduo
  have hsub : [(⟨t, a⟩ : Seat), ⟨t, b⟩] ⊆ allFreeSeats sts := by
    intro x hx
    rcases List.mem_cons.mp hx with rfl | hx'
    · exact mem_allFreeSeats.mpr ⟨mem_allSeats.mpr ⟨⟨ht1, ht25⟩, ha1, ha10⟩, haf⟩
    · rcases List.mem_cons.mp hx' with rfl | hx''
      · exact mem_allFreeSeats.mpr ⟨mem_allSeats.mpr ⟨⟨ht1, ht25⟩, hb1, hb10⟩, hbf⟩
      · exact absurd hx'' (List.not_mem_nil _)
  have hnd : ([(⟨t, a⟩ : Seat), ⟨t, b⟩]).Nodup := by
    simp [seat_eq_iff, hab]
  exact (List.subperm_of_subset hnd hsub).length_le

/-! ### Unfolding `assignChosen` branch by branch -/

lemma assignChosen_of_full_table (rand : Nat → Nat) {sts : List SeatStatus} {t : Nat}
    (h : findFullTable sts = some t) :
    assignChosen rand 10 sts = tableSeats t := by
  simp [assignChosen, h, tableSeats, List.range']

lemma assignChosen_of_duo (rand : Nat → Nat) {sts : List SeatStatus} {t a b : Nat}
    (h : findDuo sts = some (t, a, b)) :
    assignChosen rand 2 sts = [⟨t, a⟩, ⟨t, b⟩] := by
  simp [assignChosen, h]

lemma assignChosen_fallback {rand : Nat → Nat} {count : Nat} {sts : List SeatStatus}
    (h10 : count = 10 → findFullTable sts = none)
    (h2 : count = 2 → findDuo sts = none) :
    assignChosen rand count sts = randomPick rand 0 count (allFreeSeats sts) := by
  by_cases hc10 : count = 10
  · subst hc10
    simp [assignChosen, h10 rfl]
  · by_cases hc2 : count = 2
    · subst hc2
      simp [assignChosen, h2 rfl]
    · simp [assignChosen, hc10, hc2]

/-- The three possible shapes of the chosen list. -/
lemma assignChosen_cases (rand : Nat → Nat) (count : Nat) (sts : List SeatStatus) :
    (∃ t, count = 10 ∧ findFullTable sts = some t ∧
        assignChosen rand count sts = tableSeats t) ∨
      (∃ t a b, count = 2 ∧ findDuo sts = some (t, a, b) ∧
        assignChosen rand count sts = [⟨t, a⟩, ⟨t, b⟩]) ∨
      assignChosen rand count sts = randomPick rand 0 count (allFreeSeats sts) := by
  by_cases hc10 : count = 10
  · subst hc10
    cases hft : findFullTable sts with
    | some t => exact Or.inl ⟨t, rfl, rfl, assignChosen_of_full_table rand hft⟩
    | none =>
        exact Or.inr (Or.inr (assignChosen_fallback (fun _ => hft) (by omega)))
  · by_cases hc2 : count = 2
    · subst hc2
      cases hfd : findDuo sts with
      | some p =>
          have hfd' : findDuo sts = some (p.1, p.2.1, p.2.2) := by rw [hfd]
          exact Or.inr (Or.inl ⟨p.1, p.2.1, p.2.2, rfl, by rw [← hfd],
            assignChosen_of_duo rand hfd'⟩)
      | none =>
          exact Or.inr (Or.inr (assignChosen_fallback (by omega) (fun _ => hfd)))
    · exact Or.inr (Or.inr (assignChosen_fallback (fun h => absurd h hc10)
        (fun h => absurd h hc2)))

/-- Every chosen seat was free beforehand, and the chosen seats are
pairwise distinct. -/
lemma assignChosen_free_nodup (rand : Nat → Nat) (count : Nat) (sts : List SeatStatus) :
    (∀ x ∈ assignChosen rand count sts, isFree sts x.tableId x.seatId = true) ∧
      (assignChosen rand count sts).Nodup := by
  rcases assignChosen_cases rand count sts with
    ⟨t, -, hft, heq⟩ | ⟨t, a, b, -, hfd, heq⟩ | heq
  · rw [heq]
    obtain ⟨-, hfree⟩ := findFullTable_some hft
    exact ⟨fun x hx => by
      rcases mem_tableSeats.mp hx with ⟨hxt, h1, h10⟩
      rw [hxt]
      exact hfree x.seatId h1 h10, tableSeats_nodup⟩
  · rw [heq]
    obtain ⟨-, hduo⟩ := findDuo_some hfd
    obtain ⟨⟨-, -, haf⟩, ⟨-, -, hbf⟩, -, hab⟩ := duoInTable_some hduo
    refine ⟨?_, by simp [seat_eq_iff, hab]⟩
    intro x hx
    rcases List.mem_cons.mp hx with rfl | hx'
    · exact haf
    · rcases List.mem_cons.mp hx' with rfl | hx''
      · exact hbf
      · exact absurd hx'' (List.not_mem_nil _)
  · rw [heq]
    obtain ⟨hmem, hnd⟩ := randomPick_mem_nodup rand count 0 _ nodup_allFreeSeats
    exact ⟨fun x hx => (mem_allFreeSeats.mp (hmem x hx)).2, hnd⟩

/-! ## Unique seat keys and the per-operation transition analysis -/

/-- At most one status entry per `(tableId, seatId)` pair (spec §3). -/
def UniqueKeys (sts : List SeatStatus) : Prop :=
  sts.Pairwise fun a b => statusKey a ≠ statusKey b

lemma matchesSeat_key {t s : Nat} {e : SeatStatus} (h : matchesSeat t s e = true) :
    statusKey e = (t, s) := by
  rcases matchesSeat_iff.mp h with ⟨h1, h2⟩
  simp [statusKey, h1, h2]

lemma uniqueKeys_bookSeats {seats : List Seat} {src : Source} {sts : List SeatStatus}
    (h : UniqueKeys sts) : UniqueKeys (bookSeats seats src sts) := by
  obtain ⟨app, heq, hprops, hpw⟩ := bookSeats_spec src seats sts
  rw [heq, UniqueKeys, List.pairwise_append]
  refine ⟨h, hpw, ?_⟩
  intro a ha e he
  obtain ⟨-, hfree, -⟩ := hprops e he
  rw [isFree] at hfree
  have hany : sts.any (matchesSeat e.tableId e.seatId) = false := by simpa using hfree
  have hnm : matchesSeat e.tableId e.seatId a = false := by
    simpa using List.any_eq_false.mp hany a ha
  intro hk
  have h1 : a.tableId = e.tableId := congrArg Prod.fst hk
  have h2 : a.seatId = e.seatId := congrArg Prod.snd hk
  rw [matchesSeat_iff.mpr ⟨h1, h2⟩] at hnm
  simp at hnm

lemma unbookSeats_sublist :
    ∀ (seats : List Seat) (sts : List SeatStatus),
      List.Sublist (unbookSeats seats sts) sts := by
  intro seats
  induction seats with
  | nil => intro sts; exact List.Sublist.refl sts
  | cons a rest ih =>
    intro sts
    exact (ih _).trans (List.filter_sublist sts)

lemma uniqueKeys_unbookSeats {seats : List Seat} {sts : List SeatStatus}
    (h : UniqueKeys sts) : UniqueKeys (unbookSeats seats sts) :=
  List.Pairwise.sublist (unbookSeats_sublist seats sts) h

lemma uniqueKeys_toggleSeat {t s : Nat} {sts : List SeatStatus}
    (h : UniqueKeys sts) : UniqueKeys (toggleSeat t s sts) := by
  rw [toggleSeat]
  cases hidx : sts.findIdx? (matchesSeat t s) with
  | some i => exact List.Pairwise.sublist (List.eraseIdx_sublist sts i) h
  | none =>
      rw [UniqueKeys, List.pairwise_append]
      refine ⟨h, List.pairwise_singleton _ _, ?_⟩
      intro a ha e he
      rcases List.mem_singleton.mp he with rfl
      have hnm := List.findIdx?_eq_none_iff.mp hidx a ha
      intro hk
      have h1 : a.tableId = t := congrArg Prod.fst hk
      have h2 : a.seatId = s := congrArg Prod.snd hk
      rw [matchesSeat_iff.mpr ⟨h1, h2⟩] at hnm
      simp at hnm

lemma uniqueKeys_applyOp {op : Op} {sts : List SeatStatus}
    (h : UniqueKeys sts) : UniqueKeys (applyOp op sts) := by
  cases op with
  | book seats src => exact uniqueKeys_bookSeats h
  | unbook seats => exact uniqueKeys_unbookSeats h
  | toggle t s => exact uniqueKeys_toggleSeat h

lemma uniqueKeys_runOps (ops : List Op) : UniqueKeys (runOps ops) := by
  rw [runOps]
  suffices h : ∀ (l : List Op) (sts : List SeatStatus), UniqueKeys sts →
      UniqueKeys (l.foldl (fun acc op => applyOp op acc) sts) by
    exact h ops [] List.Pairwise.nil
  intro l
  induction l with
  | nil => intro sts hs; exact hs
  | cons o rest ih => intro sts hs; exact ih _ (uniqueKeys_applyOp hs)

/-- Erasing the first entry of a key removes the key entirely when keys are
unique. -/
lemma eraseP_unique_find?_none {t s : Nat} :
    ∀ (sts : List SeatStatus), UniqueKeys sts →
      (sts.eraseP (matchesSeat t s)).find? (matchesSeat t s) = none := by
  intro sts
  induction sts with
  | nil => intro _; rfl
  | cons a rest ih =>
    intro h
    rcases List.pairwise_cons.mp h with ⟨hhead, htail⟩
    by_cases hm : matchesSeat t s a
    · rw [List.eraseP_cons_of_pos hm, List.find?_eq_none]
      intro e he hme
      have hk : statusKey a = statusKey e := by
        rw [matchesSeat_key hm, matchesSeat_key hme]
      exact hhead e he hk
    · rw [List.eraseP_cons_of_neg hm, List.find?_cons_of_neg _ hm]
      exact ih htail

/-- After booking, the first entry of any already-present key is unchanged. -/
lemma seatSource_bookSeats_of_some {seats : List Seat} {src : Source}
    {sts : List SeatStatus} {t s : Nat} {e : SeatStatus}
    (h : sts.find? (matchesSeat t s) = some e) :
    (bookSeats seats src sts).find? (matchesSeat t s) = some e := by
  obtain ⟨app, heq, -, -⟩ := bookSeats_spec src seats sts
  rw [heq]
  exact find?_append_left h

/-- After unbooking, a seat's first entry is gone or unchanged. -/
lemma seatSource_unbookSeats (t s : Nat) :
    ∀ (seats : List Seat) (sts : List SeatStatus),
      (unbookSeats seats sts).find? (matchesSeat t s) = none ∨
        (unbookSeats seats sts).find? (matchesSeat t s) = sts.find? (matchesSeat t s) := by
  intro seats
  induction seats with
  | nil => intro sts; exact Or.inr rfl
  | cons a rest ih =>
    intro sts
    have hstep : unbookSeats (a :: rest) sts =
        unbookSeats rest (sts.filter fun e => !matchesSeat a.tableId a.seatId e) := rfl
    rw [hstep]
    by_cases hsame : t = a.tableId ∧ s = a.seatId
    · left
      have hnone : (sts.filter fun e => !matchesSeat a.tableId a.seatId e).find?
          (matchesSeat t s) = none := by
        rw [List.find?_eq_none]
        intro e he
        rcases List.mem_filter.mp he with ⟨-, hkeep⟩
        intro hme
        rcases matchesSeat_iff.mp hme with ⟨h1, h2⟩
        rw [Bool.not_eq_true'] at hkeep
        rw [matchesSeat_iff.mpr ⟨by omega, by omega⟩] at hkeep
        simp at hkeep
      exact (unbookSeats_sublist rest _).find?_eq_none hnone
    · rcases ih (sts.filter fun e => !matchesSeat a.tableId a.seatId e) with hn | hsame'
      · exact Or.inl hn
      · rw [hsame']
        rw [find?_filter_imp]
        · exact Or.inr rfl
        · intro e hme
          rcases matchesSeat_iff.mp hme with ⟨h1, h2⟩
          rw [Bool.not_eq_true']
          by_contra hc
          rw [Bool.not_eq_false] at hc
          rcases matchesSeat_iff.mp hc with ⟨h1', h2'⟩
          exact hsame ⟨by omega, by omega⟩

/-- After toggling any seat, a seat's first entry is gone or unchanged,
provided keys are unique. -/
lemma seatSource_toggleSeat (t' s' : Nat) {t s : Nat} {sts : List SeatStatus}
    {e : SeatStatus}
    (hu : UniqueKeys sts) (h : sts.find? (matchesSeat t s) = some e) :
    (toggleSeat t' s' sts).find? (matchesSeat t s) = none ∨
      (toggleSeat t' s' sts).find? (matchesSeat t s) = some e := by
  cases hidx : sts.findIdx? (matchesSeat t' s') with
  | none =>
      have htog : toggleSeat t' s' sts = sts ++ [⟨t', s', .admin⟩] := by
        rw [toggleSeat, hidx]
      rw [htog]
      exact Or.inr (find?_append_left h)
  | some i =>
      have htog : toggleSeat t' s' sts = sts.eraseP (matchesSeat t' s') := by
        rw [toggleSeat, hidx]
        exact eraseIdx_findIdx? sts i hidx
      rw [htog]
      by_cases hsame : t = t' ∧ s = s'
      · rcases hsame with ⟨rfl, rfl⟩
        exact Or.inl (eraseP_unique_find?_none sts hu)
      · have hdis : ∀ x, matchesSeat t s x = true → matchesSeat t' s' x = false := by
          intro x hx
          rcases matchesSeat_iff.mp hx with ⟨hx1, hx2⟩
          by_contra hc
          rw [Bool.not_eq_false] at hc
          rcases matchesSeat_iff.mp hc with ⟨hy1, hy2⟩
          exact hsame ⟨by omega, by omega⟩
        rw [find?_eraseP_disjoint hdis sts, h]
        exact Or.inr rfl

/-- In a strictly id-increasing reservation list, the last id is the
maximum id. -/
lemma lastId_of_chain :
    ∀ rs : List ReservationEntry, List.Chain' (fun a b => a.id < b.id) rs →
      (rs.getLast?.map (fun r => r.id)).getD 0 = (rs.map (fun r => r.id)).foldr Nat.max 0 := by
  intro rs
  induction rs with
  | nil => intro _; rfl
  | cons a t ih =>
    intro hch
    cases t with
    | nil => simp
    | cons b t' =>
        rcases List.chain'_cons.mp hch with ⟨hab, hch'⟩
        have hIH := ih hch'
        have h1 : ((a :: b :: t').getLast?.map (fun r => r.id)).getD 0 =
            (((b :: t').getLast?).map (fun r => r.id)).getD 0 := by
          rw [List.getLast?_cons_cons]
        rw [h1, hIH]
        simp only [List.map_cons, List.foldr_cons]
        have h2 : a.id ≤ Nat.max b.id ((t'.map (fun r => r.id)).foldr Nat.max 0) :=
          Nat.le_trans (Nat.le_of_lt hab) (Nat.le_max_left _ _)
        exact (Nat.max_eq_right h2).symm

/-! ## Concrete fixtures used by closed theorems -/

/-- A concrete random oracle (the counterexamples do not depend on it). -/
def randZero : Nat → Nat := fun _ => 0

/-- A concrete reservation form content. -/
def sampleEntry : ReservationData :=
  ⟨"n", "p", "Ticket seul", [], 0⟩

/-- The snapshot in which every one of the 250 seats is occupied. -/
def fullSnapshot : List SeatStatus :=
  allSeats.map fun s => ⟨s.tableId, s.seatId, .user⟩

/-- The allocator returns a permutation of the whole free pool whenever the
pool is smaller than the request. -/
lemma assign_perm_of_insufficient (rand : Nat → Nat) (count : Nat)
    (statuses : List SeatStatus) (h : (allFreeSeats statuses).length < count) :
    ((assignSeats rand count statuses).1).Perm (allFreeSeats statuses) := by
  have hfb : assignChosen rand count statuses =
      randomPick rand 0 count (allFreeSeats statuses) := by
    apply assignChosen_fallback
    · intro hc
      subst hc
      cases hft : findFullTable statuses with
      | none => rfl
      | some t => exact absurd (findFullTable_some_length hft) (by omega)
    · intro hc
      subst hc
      cases hfd : findDuo statuses with
      | none => rfl
      | some p =>
          have hfd' : findDuo statuses = some (p.1, p.2.1, p.2.2) := by rw [hfd]
          exact absurd (findDuo_some_length hfd') (by omega)
  show (assignChosen rand count statuses).Perm _
  rw [hfb]
  exact randomPick_perm rand count 0 _ (by omega)

/-! ## Claim theorems -/

/-- C2, counterexample: `assignSeats` does mutate the seat-status store — at
`count = 10` on the empty snapshot the stored entry list after the call is
not the (empty) list from before the call, because `assignSeats` ends by
booking the chosen seats itself. -/
theorem c2_assign_mutates_counterexample :
    (assignSeats randZero 10 []).2 ≠ ([] : List SeatStatus) := by
  decide

/-- C2, amended: `assignSeats` books the seats it returns with source
`user` before returning: the store after the call is the store before the
call plus exactly one fresh `user` entry per returned seat (the returned
seats are free and pairwise distinct, so each one really is appended). The
caller does not need to book them again; booking them again is a no-op. -/
theorem c2_assign_books_returned_seats (rand : Nat → Nat) (count : Nat)
    (statuses : List SeatStatus) :
    (assignSeats rand count statuses).2 =
      statuses ++ (assignSeats rand count statuses).1.map
        (fun s => ⟨s.tableId, s.seatId, Source.user⟩) := by
  obtain ⟨hfree, hnd⟩ := assignChosen_free_nodup rand count statuses
  exact bookSeats_of_free_nodup _ .user statuses hfree hnd

/-- C3, counterexample: starting from an empty store, two adds assign ids 1
and 2; deleting id 2 succeeds; the next add reassigns the previously
deleted id 2 — so ids of deleted reservations are reused.  Moreover, on a
stored list whose ids are not in increasing order, the new id is last+1
(here 4), not max+1 (here 6). -/
theorem c3_id_reuse_counterexample :
    ((addReservation sampleEntry (addReservation sampleEntry [])).map
        (fun r => r.id) = [1, 2]) ∧
      ((deleteReservation 2
          (addReservation sampleEntry (addReservation sampleEntry []))).2 = true) ∧
      ((addReservation sampleEntry
          (deleteReservation 2
            (addReservation sampleEntry (addReservation sampleEntry []))).1).map
        (fun r => r.id) = [1, 2]) ∧
      ((addReservation sampleEntry
          [⟨5, "a", "b", "c", [], 0⟩, ⟨3, "a", "b", "c", [], 0⟩]).map
        (fun r => r.id) = [5, 3, 4]) := by
  decide

/-- C3, amended: adding a reservation appends an entry whose id is the id
of the *last* stored entry plus one (1 on an empty list); on every list
whose ids are stored in strictly increasing order — which includes every
list reachable by add/delete from empty — this coincides with
max(existing ids, default 0) + 1, and the first reservation gets id 1.
Ids of deleted reservations can, however, be reassigned. -/
theorem c3_add_assigns_max_plus_one (entry : ReservationData)
    (rs : List ReservationEntry)
    (hch : List.Chain' (fun a b => a.id < b.id) rs) :
    ∃ r, addReservation entry rs = rs ++ [r] ∧
      r.id = (rs.map (fun x => x.id)).foldr Nat.max 0 + 1 ∧
      r.name = entry.name ∧ r.phone = entry.phone ∧ r.pack = entry.pack ∧
      r.seats = entry.seats ∧ r.timestamp = entry.timestamp := by
  have hl := lastId_of_chain rs hch
  refine ⟨⟨(match rs.getLast? with | some last => last.id + 1 | none => 1),
    entry.name, entry.phone, entry.pack, entry.seats, entry.timestamp⟩,
    rfl, ?_, rfl, rfl, rfl, rfl, rfl⟩
  cases hgl : rs.getLast? with
  | none =>
      rw [hgl] at hl
      simp only [Option.map_none', Option.getD_none] at hl
      rw [← hl]
  | some last =>
      rw [hgl] at hl
      simp only [Option.map_some', Option.getD_some] at hl
      rw [← hl]

theorem c3_add_assigns_max_plus_one_witness :
    List.Chain' (fun a b => a.id < b.id)
        [(⟨1, "a", "b", "c", [], 0⟩ : ReservationEntry), ⟨2, "a", "b", "c", [], 0⟩] ∧
      ∃ r, addReservation sampleEntry
          [(⟨1, "a", "b", "c", [], 0⟩ : ReservationEntry), ⟨2, "a", "b", "c", [], 0⟩] =
          [(⟨1, "a", "b", "c", [], 0⟩ : ReservationEntry), ⟨2, "a", "b", "c", [], 0⟩] ++ [r] ∧
        r.id = ([(⟨1, "a", "b", "c", [], 0⟩ : ReservationEntry),
            ⟨2, "a", "b", "c", [], 0⟩].map (fun x => x.id)).foldr Nat.max 0 + 1 ∧
        r.name = sampleEntry.name ∧ r.phone = sampleEntry.phone ∧
        r.pack = sampleEntry.pack ∧ r.seats = sampleEntry.seats ∧
        r.timestamp = sampleEntry.timestamp :=
  ⟨by norm_num [List.chain'_cons, List.chain'_singleton],
   c3_add_assigns_max_plus_one sampleEntry _
     (by norm_num [List.chain'_cons, List.chain'_singleton])⟩

/-- C7: `bookSeats` is idempotent and never overwrites — (i) the entries of
any seat that already has an entry (whatever its source) are left exactly
as they were, (ii) any requested seat without an entry ends up with exactly
one entry, carrying the requested source, and (iii) booking the same seat
list twice with the same source is the same as booking it once. -/
theorem c7_book_idempotent_no_overwrite (seats : List Seat) (src : Source)
    (sts : List SeatStatus) :
    (∀ t s, sts.any (matchesSeat t s) = true →
        (bookSeats seats src sts).filter (matchesSeat t s) =
          sts.filter (matchesSeat t s)) ∧
      (∀ seat ∈ seats, sts.any (matchesSeat seat.tableId seat.seatId) = false →
        (bookSeats seats src sts).filter (matchesSeat seat.tableId seat.seatId) =
          [⟨seat.tableId, seat.seatId, src⟩]) ∧
      bookSeats seats src (bookSeats seats src sts) = bookSeats seats src sts :=
  ⟨fun _ _ h => bookSeats_filter_present h,
   fun seat hm h => bookSeats_filter_absent seats src sts seat hm h,
   bookSeats_idem⟩

theorem c7_book_idempotent_no_overwrite_witness :
    (([(⟨2, 2, Source.admin⟩ : SeatStatus)].any (matchesSeat 2 2) = true) ∧
        (bookSeats [⟨1, 1⟩] Source.user [⟨2, 2, Source.admin⟩]).filter (matchesSeat 2 2) =
          [⟨2, 2, Source.admin⟩].filter (matchesSeat 2 2)) ∧
      (((⟨1, 1⟩ : Seat) ∈ [(⟨1, 1⟩ : Seat)]) ∧
        ([(⟨2, 2, Source.admin⟩ : SeatStatus)].any (matchesSeat 1 1) = false) ∧
        (bookSeats [⟨1, 1⟩] Source.user [⟨2, 2, Source.admin⟩]).filter (matchesSeat 1 1) =
          [⟨1, 1, Source.user⟩]) ∧
      bookSeats [⟨1, 1⟩] Source.user
          (bookSeats [⟨1, 1⟩] Source.user [⟨2, 2, Source.admin⟩]) =
        bookSeats [⟨1, 1⟩] Source.user [⟨2, 2, Source.admin⟩] :=
  ⟨⟨by decide, (c7_book_idempotent_no_overwrite [⟨1, 1⟩] Source.user
      [⟨2, 2, Source.admin⟩]).1 2 2 (by decide)⟩,
   ⟨by decide, by decide, (c7_book_idempotent_no_overwrite [⟨1, 1⟩] Source.user
      [⟨2, 2, Source.admin⟩]).2.1 ⟨1, 1⟩ (by decide) (by decide)⟩,
   (c7_book_idempotent_no_overwrite [⟨1, 1⟩] Source.user [⟨2, 2, Source.admin⟩]).2.2⟩

/-- C8: when the persisted reservation or seat-status blob is missing or
malformed, the read operations return an empty collection instead of
failing. -/
theorem c8_malformed_reads_empty :
    getSeatStatuses RawSeatData.malformed = [] ∧
      getSeatStatuses RawSeatData.missing = [] ∧
      getReservations (RawListData.malformed) = [] ∧
      getReservations (RawListData.missing) = [] :=
  ⟨rfl, rfl, rfl, rfl⟩

/-- C9: from any state reachable by a sequence of store operations, no
single further operation (`bookSeats`, `unbookSeats` or `toggleSeat`) moves
a seat directly from an admin entry to a user entry; the seat must pass
through the free state first. -/
theorem c9_no_admin_to_user_step (ops : List Op) (op : Op) (t s : Nat)
    (h : seatSource (runOps ops) t s = some Source.admin) :
    seatSource (applyOp op (runOps ops)) t s ≠ some Source.user := by
  have hu : UniqueKeys (runOps ops) := uniqueKeys_runOps ops
  rw [seatSource, Option.map_eq_some'] at h
  obtain ⟨e, hfind, hsrc⟩ := h
  intro hc
  rw [seatSource, Option.map_eq_some'] at hc
  obtain ⟨e', hfind', hsrc'⟩ := hc
  cases op with
  | book seats src =>
      have hsame : List.find? (matchesSeat t s) (applyOp (Op.book seats src) (runOps ops)) =
          some e := seatSource_bookSeats_of_some hfind
      rw [hfind'] at hsame
      cases hsame
      rw [hsrc] at hsrc'
      exact Source.noConfusion hsrc'
  | unbook seats =>
      rcases seatSource_unbookSeats t s seats (runOps ops) with hn | hsame
      · rw [show applyOp (Op.unbook seats) (runOps ops) =
            unbookSeats seats (runOps ops) from rfl] at hfind'
        rw [hn] at hfind'
        exact Option.noConfusion hfind'
      · rw [show applyOp (Op.unbook seats) (runOps ops) =
            unbookSeats seats (runOps ops) from rfl] at hfind'
        rw [hsame, hfind] at hfind'
        cases hfind'
        rw [hsrc] at hsrc'
        exact Source.noConfusion hsrc'
  | toggle t' s' =>
      rcases seatSource_toggleSeat t' s' hu hfind with hn | hsame
      · rw [show applyOp (Op.toggle t' s') (runOps ops) =
            toggleSeat t' s' (runOps ops) from rfl] at hfind'
        rw [hn] at hfind'
        exact Option.noConfusion hfind'
      · rw [show applyOp (Op.toggle t' s') (runOps ops) =
            toggleSeat t' s' (runOps ops) from rfl] at hfind'
        rw [hsame] at hfind'
        cases hfind'
        rw [hsrc] at hsrc'
        exact Source.noConfusion hsrc'

theorem c9_no_admin_to_user_step_witness :
    seatSource (runOps [Op.toggle 1 1]) 1 1 = some Source.admin ∧
      seatSource (applyOp (Op.book [⟨1, 1⟩] Source.user) (runOps [Op.toggle 1 1])) 1 1 ≠
        some Source.user :=
  ⟨by decide,
   c9_no_admin_to_user_step [Op.toggle 1 1] (Op.book [⟨1, 1⟩] Source.user) 1 1 (by decide)⟩

/-- C4: for `count = 10` the allocator scans tables in ascending id and
returns the ten seats (in seat-id order 1..10) of the first table that has
no status entry, for any snapshot whose entries carry seat ids in 1..10;
in particular on the empty snapshot it returns exactly the ten seats of
table 1 in order. -/
theorem c4_full_table_first_fully_free (rand : Nat → Nat)
    (statuses : List SeatStatus) (t : Nat)
    (hwf : ∀ e ∈ statuses, 1 ≤ e.seatId ∧ e.seatId ≤ 10)
    (ht1 : 1 ≤ t) (ht25 : t ≤ 25)
    (hnone : ∀ e ∈ statuses, e.tableId ≠ t)
    (hbefore : ∀ u ∈ List.range' 1 25, u < t → ∃ e ∈ statuses, e.tableId = u) :
    (assignSeats rand 10 statuses).1 = tableSeats t ∧
      (assignSeats rand 10 []).1 =
        [⟨1, 1⟩, ⟨1, 2⟩, ⟨1, 3⟩, ⟨1, 4⟩, ⟨1, 5⟩,
         ⟨1, 6⟩, ⟨1, 7⟩, ⟨1, 8⟩, ⟨1, 9⟩, ⟨1, 10⟩] := by
  constructor
  · have hft : findFullTable statuses = some t := by
      rw [findFullTable]
      refine find?_range'_eq_some 1 25 ht1 (by omega) ?_ ?_
      · intro u hu1 hut
        obtain ⟨e, he, het⟩ :=
          hbefore u (mem_range_one.mpr ⟨hu1, by omega⟩) hut
        have hse := hwf e he
        have hocc : isFree statuses u e.seatId = false := by
          rw [isFree]
          have hany : statuses.any (matchesSeat u e.seatId) = true :=
            List.any_eq_true.mpr ⟨e, he, matchesSeat_iff.mpr ⟨het, rfl⟩⟩
          rw [hany]
          rfl
        cases hall : (List.range' 1 10).all (isFree statuses u) with
        | false => rfl
        | true =>
            have hq := List.all_eq_true.mp hall e.seatId
              (mem_range_one.mpr ⟨hse.1, by omega⟩)
            rw [hocc] at hq
            exact Bool.noConfusion hq
      · rw [List.all_eq_true]
        intro s' _
        rw [isFree]
        have hany : statuses.any (matchesSeat t s') = false := by
          rw [List.any_eq_false]
          intro e he hm
          exact hnone e he (matchesSeat_iff.mp hm).1
        rw [hany]
        rfl
    exact assignChosen_of_full_table rand hft
  · have hft : findFullTable ([] : List SeatStatus) = some 1 := by decide
    exact (assignChosen_of_full_table rand hft).trans (by decide)

theorem c4_full_table_first_fully_free_witness :
    (∀ e ∈ [(⟨1, 3, Source.user⟩ : SeatStatus)], 1 ≤ e.seatId ∧ e.seatId ≤ 10) ∧
      1 ≤ 2 ∧ 2 ≤ 25 ∧
      (∀ e ∈ [(⟨1, 3, Source.user⟩ : SeatStatus)], e.tableId ≠ 2) ∧
      (∀ u ∈ List.range' 1 25, u < 2 →
        ∃ e ∈ [(⟨1, 3, Source.user⟩ : SeatStatus)], e.tableId = u) ∧
      ((assignSeats randZero 10 [⟨1, 3, Source.user⟩]).1 = tableSeats 2 ∧
        (assignSeats randZero 10 []).1 =
          [⟨1, 1⟩, ⟨1, 2⟩, ⟨1, 3⟩, ⟨1, 4⟩, ⟨1, 5⟩,
           ⟨1, 6⟩, ⟨1, 7⟩, ⟨1, 8⟩, ⟨1, 9⟩, ⟨1, 10⟩]) :=
  ⟨by decide, by decide, by decide, by decide, by decide,
   c4_full_table_first_fully_free randZero [⟨1, 3, Source.user⟩] 2
     (by decide) (by decide) (by decide) (by decide) (by decide)⟩

/-- C6: the allocator never fails on insufficient inventory — whenever
fewer than `count` seats are free, it returns (a permutation of) all the
remaining free seats, and in particular on a snapshot with no free seat at
all, a request for one seat returns the empty list rather than an error. -/
theorem c6_insufficient_inventory_returns_rest (rand : Nat → Nat) (count : Nat)
    (statuses : List SeatStatus) :
    ((allFreeSeats statuses).length < count →
        ((assignSeats rand count statuses).1).Perm (allFreeSeats statuses)) ∧
      (allFreeSeats statuses = [] → (assignSeats rand 1 statuses).1 = []) := by
  constructor
  · exact assign_perm_of_insufficient rand count statuses
  · intro hz
    have hp := assign_perm_of_insufficient rand 1 statuses (by rw [hz]; norm_num)
    rw [hz] at hp
    exact List.Perm.eq_nil hp

set_option maxRecDepth 100000 in
theorem c6_insufficient_inventory_returns_rest_witness :
    ((allFreeSeats fullSnapshot).length < 1 ∧
        ((assignSeats randZero 1 fullSnapshot).1).Perm (allFreeSeats fullSnapshot)) ∧
      (allFreeSeats fullSnapshot = [] ∧ (assignSeats randZero 1 fullSnapshot).1 = []) := by
  have hz : allFreeSeats fullSnapshot = [] := by decide
  have hlen : (allFreeSeats fullSnapshot).length < 1 := by rw [hz]; norm_num
  exact ⟨⟨hlen, (c6_insufficient_inventory_returns_rest randZero 1 fullSnapshot).1 hlen⟩,
    hz, (c6_insufficient_inventory_returns_rest randZero 1 fullSnapshot).2 hz⟩

/-- The snapshot in which seats 2..9 of table 1 are occupied, so that only
the circularly adjacent seats 10 and 1 of table 1 are free. -/
def wrapSnapshot : List SeatStatus :=
  (List.range' 2 8).map fun s => ⟨1, s, .user⟩

/-- The snapshot in which tables 1 and 2 are fully occupied and table 3 has
exactly seats 9 and 10 free. -/
def c5Snapshot : List SeatStatus :=
  ((List.range' 1 10).map fun s => ⟨1, s, .user⟩) ++
    ((List.range' 1 10).map fun s => ⟨2, s, .user⟩) ++
    ((List.range' 1 8).map fun s => ⟨3, s, .user⟩)

/-- C5: for `count = 2` the allocator scans tables in ascending id and free
seats in ascending seat id, returning the first free seat of a table whose
circular successor in the same table is also free, together with that
successor: on any snapshot where tables 1 and 2 have no adjacent free pair
and table 3 has exactly seats 9 and 10 free, it returns `[(3,9), (3,10)]`;
and seats 10 and 1 of a table count as adjacent (on the snapshot where
table 1 has exactly seats 10 and 1 free it returns `[(1,10), (1,1)]`). -/
theorem c5_duo_adjacent_scan (rand : Nat → Nat) (statuses : List SeatStatus)
    (h1 : ∀ s' ∈ List.range' 1 10,
      isFree statuses 1 s' = true → isFree statuses 1 (duoNext s') = false)
    (h2 : ∀ s' ∈ List.range' 1 10,
      isFree statuses 2 s' = true → isFree statuses 2 (duoNext s') = false)
    (h3 : ∀ s' ∈ List.range' 1 10,
      isFree statuses 3 s' = true ↔ (s' = 9 ∨ s' = 10)) :
    (assignSeats rand 2 statuses).1 = [⟨3, 9⟩, ⟨3, 10⟩] ∧
      (assignSeats rand 2 wrapSnapshot).1 = [⟨1, 10⟩, ⟨1, 1⟩] := by
  constructor
  · have hd1 : duoInTable statuses 1 = none :=
      duoInTable_none fun s hs1 hs10 => h1 s (mem_range_one.mpr ⟨hs1, by omega⟩)
    have hd2 : duoInTable statuses 2 = none :=
      duoInTable_none fun s hs1 hs10 => h2 s (mem_range_one.mpr ⟨hs1, by omega⟩)
    have hfalse : ∀ s', 1 ≤ s' → s' ≤ 8 → isFree statuses 3 s' = false := by
      intro s' ha hb
      cases hfb : isFree statuses 3 s' with
      | false => rfl
      | true =>
          rcases (h3 s' (mem_range_one.mpr ⟨ha, by omega⟩)).mp hfb with h | h <;> omega
    have h9 : isFree statuses 3 9 = true :=
      (h3 9 (by decide)).mpr (Or.inl rfl)
    have h10 : isFree statuses 3 10 = true :=
      (h3 10 (by decide)).mpr (Or.inr rfl)
    have e1 := hfalse 1 (by norm_num) (by norm_num)
    have e2 := hfalse 2 (by norm_num) (by norm_num)
    have e3 := hfalse 3 (by norm_num) (by norm_num)
    have e4 := hfalse 4 (by norm_num) (by norm_num)
    have e5 := hfalse 5 (by norm_num) (by norm_num)
    have e6 := hfalse 6 (by norm_num) (by norm_num)
    have e7 := hfalse 7 (by norm_num) (by norm_num)
    have e8 := hfalse 8 (by norm_num) (by norm_num)
    have hfs : (List.range' 1 10).filter (isFree statuses 3) = [9, 10] := by
      have hr : List.range' 1 10 = [1, 2, 3, 4, 5, 6, 7, 8, 9, 10] := rfl
      rw [hr]
      simp [List.filter_cons, e1, e2, e3, e4, e5, e6, e7, e8, h9, h10]
    have hd3 : duoInTable statuses 3 = some (9, 10) := by
      rw [duoInTable, hfs]
      decide
    have hfd : findDuo statuses = some (3, 9, 10) := by
      have hr25 : List.range' 1 25 = 1 :: 2 :: 3 :: List.range' 4 22 := rfl
      rw [findDuo, hr25]
      simp [List.findSome?_cons, hd1, hd2, hd3]
    exact assignChosen_of_duo rand hfd
  · have hfd : findDuo wrapSnapshot = some (1, 10, 1) := by decide
    exact assignChosen_of_duo rand hfd

theorem c5_duo_adjacent_scan_witness :
    (∀ s' ∈ List.range' 1 10,
        isFree c5Snapshot 1 s' = true → isFree c5Snapshot 1 (duoNext s') = false) ∧
      (∀ s' ∈ List.range' 1 10,
        isFree c5Snapshot 2 s' = true → isFree c5Snapshot 2 (duoNext s') = false) ∧
      (∀ s' ∈ List.range' 1 10,
        isFree c5Snapshot 3 s' = true ↔ (s' = 9 ∨ s' = 10)) ∧
      ((assignSeats randZero 2 c5Snapshot).1 = [⟨3, 9⟩, ⟨3, 10⟩] ∧
        (assignSeats randZero 2 wrapSnapshot).1 = [⟨1, 10⟩, ⟨1, 1⟩]) :=
  ⟨by decide, by decide, by decide,
   c5_duo_adjacent_scan randZero c5Snapshot (by decide) (by decide) (by decide)⟩

/-- The free seats of table `tbl` as the admin table-pack branch collects
them: seat ids 1..10 without a status entry, in ascending order. -/
def tableFreeSeats (statuses : List SeatStatus) (tbl : Nat) : List Seat :=
  ((List.range' 1 10).filter (isFree statuses tbl)).map fun s => ⟨tbl, s⟩

lemma packIncl_empty_table : packIncl "" "table" = false := by decide

/-- C10: when the admin creates or updates a reservation whose pack label
contains `table`, the reservation's seat list is exactly the currently free
seats of the selected table — occupied seats are silently omitted — so on a
partially occupied table the stored "full table" reservation has fewer than
10 seats (concretely: with seat 5 of table 1 occupied, the created
reservation holds 9 seats). -/
theorem c10_admin_table_pack_free_seats_only (st : Store) (tbl : Nat)
    (seatSel : Option Nat) (rand : Nat → Nat) (ts : Nat)
    (name phone pack : String) (hn : name ≠ "") (hp : phone ≠ "")
    (hpk : packIncl pack "table" = true) (eid : Nat) (oldR : ReservationEntry)
    (hfindOld : st.reservations.find? (fun r => r.id == eid) = some oldR) :
    (∃ r, (addReservationAdmin name phone pack (some tbl) seatSel rand ts st).reservations =
        st.reservations ++ [r] ∧
      r.seats = tableFreeSeats st.statuses tbl ∧
      r.name = name ∧ r.phone = phone ∧ r.pack = pack) ∧
      ((updateReservationAdmin (some eid) name phone pack (some tbl) seatSel rand ts
          st).reservations =
        (updateReservation eid ⟨name, phone, pack, tableFreeSeats st.statuses tbl, ts⟩
          st.reservations).1) ∧
      ((addReservationAdmin "a" "b" "Pack table complète" (some 1) none randZero 0
          ⟨[], [⟨1, 5, Source.user⟩]⟩).reservations.map (fun r => r.seats.length) = [9]) := by
  have hpne : pack ≠ "" := by
    intro hc
    rw [hc, packIncl_empty_table] at hpk
    exact Bool.false_ne_true hpk
  have hguard : ¬(name = "" ∨ phone = "" ∨ pack = "") := by
    rintro (hc | hc | hc)
    · exact hn hc
    · exact hp hc
    · exact hpne hc
  have hbuilt : adminBuildSeats pack tbl seatSel rand st.statuses =
      (tableFreeSeats st.statuses tbl, st.statuses) := by
    rw [adminBuildSeats.eq_def, if_pos hpk]
    rfl
  refine ⟨?_, ?_, by decide⟩
  · rw [addReservationAdmin, if_neg hguard]
    simp only [hbuilt]
    exact ⟨_, rfl, rfl, rfl, rfl, rfl⟩
  · rw [updateReservationAdmin]
    simp only [if_neg hguard, hfindOld, hbuilt]

theorem c10_admin_table_pack_free_seats_only_witness :
    ("x" : String) ≠ "" ∧ ("y" : String) ≠ "" ∧
      packIncl "Pack table complète" "table" = true ∧
      (⟨[⟨1, "a", "b", "c", [], 0⟩], [⟨1, 5, Source.user⟩]⟩ : Store).reservations.find?
          (fun r => r.id == 1) = some ⟨1, "a", "b", "c", [], 0⟩ ∧
      ((∃ r, (addReservationAdmin "x" "y" "Pack table complète" (some 1) none randZero 7
            ⟨[⟨1, "a", "b", "c", [], 0⟩], [⟨1, 5, Source.user⟩]⟩).reservations =
          (⟨[⟨1, "a", "b", "c", [], 0⟩], [⟨1, 5, Source.user⟩]⟩ : Store).reservations ++ [r] ∧
        r.seats = tableFreeSeats [⟨1, 5, Source.user⟩] 1 ∧
        r.name = "x" ∧ r.phone = "y" ∧ r.pack = "Pack table complète") ∧
        ((updateReservationAdmin (some 1) "x" "y" "Pack table complète" (some 1) none randZero 7
            ⟨[⟨1, "a", "b", "c", [], 0⟩], [⟨1, 5, Source.user⟩]⟩).reservations =
          (updateReservation 1
            ⟨"x", "y", "Pack table complète", tableFreeSeats [⟨1, 5, Source.user⟩] 1, 7⟩
            [⟨1, "a", "b", "c", [], 0⟩]).1) ∧
        ((addReservationAdmin "a" "b" "Pack table complète" (some 1) none randZero 0
            ⟨[], [⟨1, 5, Source.user⟩]⟩).reservations.map (fun r => r.seats.length) = [9])) :=
  ⟨by decide, by decide, by decide, by decide,
   c10_admin_table_pack_free_seats_only
     ⟨[⟨1, "a", "b", "c", [], 0⟩], [⟨1, 5, Source.user⟩]⟩ 1 none randZero 7
     "x" "y" "Pack table complète" (by decide) (by decide) (by decide)
     1 ⟨1, "a", "b", "c", [], 0⟩ (by decide)⟩

/-- The state in which seat 10 of table 1 is admin-blocked and there are no
reservations; it satisfies the consistency invariant. -/
def c1Store : Store :=
  ⟨[], [⟨1, 10, Source.admin⟩]⟩

/-- C1: evaluation at the failing input.  Starting from a consistent state
(seat (1,10) admin-blocked, no reservations), the admin "create with
explicit seat selection" operation for a duo pack at table 1, seat 9 —
whose circular successor (1,10) is occupied — stores a reservation
referencing both (1,9) and (1,10) while only (1,9) gains a `user` status
entry; (1,10) keeps its admin entry, so the resulting state violates the
invariant: the set of `user`-sourced seats no longer equals the union of
the live reservations' seat lists, and the reservation references an
admin-blocked seat.  (The component's own documentation promises an
auto-assignment fallback when the second seat is not free; the code has no
such check.) -/
theorem c1_admin_duo_explicit_breaks_invariant :
    ConsistentState c1Store ∧
      addReservationAdmin "a" "b" "duo" (some 1) (some 9) randZero 0 c1Store =
        ⟨[⟨1, "a", "b", "duo", [⟨1, 9⟩, ⟨1, 10⟩], 0⟩],
         [⟨1, 10, Source.admin⟩, ⟨1, 9, Source.user⟩]⟩ ∧
      ¬ ConsistentState
        (addReservationAdmin "a" "b" "duo" (some 1) (some 9) randZero 0 c1Store) :=
  ⟨by decide, by decide, by decide⟩

end Chaabi
